import Mathlib

/-!
Shallow embedding of the mDNS protocol engine in
src/protocols/mdns/src/behaviour/mdns_service.rs.

Pure protocol logic (packet construction, query matching, response
ingestion, the listener dispatch) is translated into executable Lean
functions.  Network transmission is modelled by returning the list of
(packet, destination) pairs handed to send_packet; the local-IP lookup
and the registry are passed in explicitly as values.  The supporting
types (DnsName, DnsPacket, DnsRecord, the registry operations) live in
other files of the repository and are modelled from the spec where noted.
-/

/-- Modelled from the spec: an IPv4 address, four octets (Rust [u8;4] /
std::net::Ipv4Addr). Octets are Nats; no arithmetic is performed on them. -/
structure Ipv4 where
  a : Nat
  b : Nat
  c : Nat
  d : Nat
deriving DecidableEq, Repr

/-- Modelled from the spec: DomainName is a validated dot-separated label
sequence, constructed from a string; construction fails if labels violate
the DNS length limits (each label at most 63 bytes, total encoded form at
most 255 bytes).  The stored string is what Display renders. -/
structure DnsName where
  name : String
deriving DecidableEq, Repr

/-- Modelled from the spec: byte lengths of the dot-separated labels of a
name, computed over the character list (utf8Size per character). -/
def dnsLabelLens : List Char → List Nat
  | [] => [0]
  | c :: cs =>
    match dnsLabelLens cs with
    | [] => []
    | n :: rest => if c = ('.') then 0 :: n :: rest else (n + c.utf8Size) :: rest

/-- Modelled from the spec: length of the wire encoding of a name, one
length byte per label plus the label bytes, plus the terminating zero byte. -/
def dnsEncodedLen (s : String) : Nat :=
  ((dnsLabelLens s.data).foldl (fun acc n => acc + 1 + n) 0) + 1

/-- Modelled from the spec: a string is a valid DomainName when every label
is at most 63 bytes and the encoded form is at most 255 bytes. -/
def dnsNameValid (s : String) : Bool :=
  ((dnsLabelLens s.data).all (fun n => decide (n ≤ 63))) && decide (dnsEncodedLen s ≤ 255)

/-- Modelled from the spec: DnsName::new, the fallible DomainName
constructor (None models the Err case that DnsName::new(..).unwrap()
panics on). -/
def DnsName.new (s : String) : Option DnsName :=
  if dnsNameValid s then some ⟨s⟩ else none

/-- Question from the wire model: name, 16-bit qtype, 16-bit qclass. -/
structure DnsQuestion where
  qname : DnsName
  qtype : Nat
  qclass : Nat
deriving DecidableEq, Repr

/-- Resource record variants used by the engine (A, PTR, SRV), with the
field sets of the Rust DnsRecord enum. -/
inductive DnsRecord where
  | A (name : DnsName) (ttl : Nat) (ip : Ipv4)
  | PTR (name : DnsName) (ttl : Nat) (ptr_name : DnsName)
  | SRV (name : DnsName) (ttl : Nat) (priority : Nat) (weight : Nat) (port : Nat)
        (target : DnsName)
deriving DecidableEq, Repr

/-- Wire packet: 16-bit header flags, ordered questions, ordered answers. -/
structure DnsPacket where
  flags : Nat
  questions : List DnsQuestion
  answers : List DnsRecord
deriving DecidableEq, Repr

/-- Modelled from the spec: DnsPacket::new yields an empty packet with
zeroed flags. -/
def DnsPacket.new : DnsPacket := ⟨0, [], []⟩

/-- ServiceRecord registry entry, as constructed in mdns_service.rs. -/
structure ServiceRecord where
  id : String
  service_type : String
  port : Nat
  ttl : Option Nat
  origin : String
  priority : Option Nat
  weight : Option Nat
deriving DecidableEq, Repr

/-- NodeRecord registry entry for discovered peers. -/
structure NodeRecord where
  id : String
  ip_address : String
  ttl : Option Nat
deriving DecidableEq, Repr

/-- Socket addresses as the engine distinguishes them: an IPv4 address
with a port, or a non-IPv4 (IPv6) address whose payload the engine never
inspects. -/
inductive SocketAddr where
  | V4 (ip : Ipv4) (port : Nat)
  | V6
deriving DecidableEq, Repr

/-- Outcome of a fallible engine operation: Ok value, Err (MdnsError
with its message), or a Rust panic (from an unconditional unwrap). -/
inductive MdnsResult (α : Type) where
  | ok (val : α)
  | err (msg : String)
  | panicked
deriving DecidableEq, Repr

/-- The multicast destination 224.0.0.251:5353 used by send_packet for
every outgoing packet. -/
def sendDest : SocketAddr := SocketAddr.V4 ⟨224, 0, 0, 251⟩ 5353

/-- Dotted-decimal rendering of an IPv4 address (Display for Ipv4Addr). -/
def ipToString (i : Ipv4) : String :=
  Nat.repr i.a ++ "." ++ Nat.repr i.b ++ "." ++ Nat.repr i.c ++ "." ++ Nat.repr i.d

/-- Modelled from the spec: MdnsRegistry::add_node inserts or overwrites
by id (last-write-wins upsert). -/
def addNode (nodes : List NodeRecord) (n : NodeRecord) : List NodeRecord :=
  if nodes.any (fun m => m.id == n.id) then
    nodes.map (fun m => if m.id == n.id then n else m)
  else nodes ++ [n]

/-- Option-valued traversal of a list: None as soon as f fails (models a
sequence of Rust unwraps, any of which may panic). -/
def optTraverse (f : α → Option β) : List α → Option (List β)
  | [] => some []
  | x :: xs =>
    match f x, optTraverse f xs with
    | some y, some ys => some (y :: ys)
    | _, _ => none

/-- Concatenation of a list of lists. -/
def listJoin : List (List α) → List α
  | [] => []
  | l :: ls => l ++ listJoin ls

/-- MdnsService::register_local_service: builds the ServiceRecord exactly
from its arguments, with priority and weight set to Some(0); no validation
of id, service_type or origin is performed. -/
def register_local_service (id service_type : String) (port : Nat) (ttl : Option Nat)
    (origin : String) : ServiceRecord :=
  ⟨id, service_type, port, ttl, origin, some 0, some 0⟩

/-- Per-service answer triple of create_advertise_packet: PTR, SRV, A in
order, ttl defaulting to 120, A carrying the locally-discovered IP.  None
models the panic of DnsName::new(..).unwrap() on an invalid name. -/
def serviceAnswers (s : ServiceRecord) (localIp : Ipv4) : Option (List DnsRecord) := do
  let tyName ← DnsName.new s.service_type
  let idName ← DnsName.new s.id
  let originName ← DnsName.new s.origin
  pure [DnsRecord.PTR tyName (s.ttl.getD 120) idName,
        DnsRecord.SRV idName (s.ttl.getD 120) (s.priority.getD 0) (s.weight.getD 0)
          s.port originName,
        DnsRecord.A originName (s.ttl.getD 120) localIp]

/-- MdnsService::create_advertise_packet over a registry snapshot.
localIp? is the result the get_local_ipv4 collaborator would return; it is
only consulted on the branch where the Rust code calls it. -/
def create_advertise_packet (services : List ServiceRecord) (localIp? : Option Ipv4) :
    MdnsResult DnsPacket :=
  if services.isEmpty then MdnsResult.ok ⟨0x8400, [], []⟩
  else
    match localIp? with
    | none => MdnsResult.err ("Failed to get local IP")
    | some ip =>
      match optTraverse (fun s => serviceAnswers s ip) services with
      | none => MdnsResult.panicked
      | some anss => MdnsResult.ok ⟨0x8400, [], listJoin anss⟩

/-- MdnsService::advertise_services: build the advertisement packet and
hand it (unconditionally, even when answerless) to send_packet addressed
to the multicast group. -/
def advertise_services (services : List ServiceRecord) (localIp? : Option Ipv4) :
    MdnsResult (List (DnsPacket × SocketAddr)) :=
  match create_advertise_packet services localIp? with
  | MdnsResult.ok p => MdnsResult.ok [(p, sendDest)]
  | MdnsResult.err e => MdnsResult.err e
  | MdnsResult.panicked => MdnsResult.panicked

/-- One iteration of MdnsService::periodic_query: the query packet with
flags 0x0000 and a single PTR/IN question for the service type; None
models the DnsName::new(..).unwrap() panic. -/
def periodic_query_packet (service_type : String) : Option DnsPacket :=
  (DnsName.new service_type).map (fun n => ⟨0x0000, [⟨n, 12, 1⟩], []⟩)

/-- Exact-equality query matching of process_query: services whose
service_type equals the rendered question name byte for byte. -/
def matchingServices (services : List ServiceRecord) (requested : String) :
    List ServiceRecord :=
  services.filter (fun s => s.service_type == requested)

/-- Per-service answers of the query response in process_query: PTR and
SRV as in advertising, and an A record carrying the querying source's
IPv4 octets, skipped when the source is not IPv4. -/
def serviceQueryAnswers (s : ServiceRecord) (src : SocketAddr) : Option (List DnsRecord) := do
  let tyName ← DnsName.new s.service_type
  let idName ← DnsName.new s.id
  let originName ← DnsName.new s.origin
  let base := [DnsRecord.PTR tyName (s.ttl.getD 120) idName,
               DnsRecord.SRV idName (s.ttl.getD 120) (s.priority.getD 0) (s.weight.getD 0)
                 s.port originName]
  match src with
  | SocketAddr.V4 ip _ => pure (base ++ [DnsRecord.A originName (s.ttl.getD 120) ip])
  | SocketAddr.V6 => pure base

/-- Packets sent for one question in process_query: nothing unless
qtype = 12 and qclass = 1 and the match set is non-empty, otherwise one
response packet with flags 0x8400 sent to the multicast group.  None
models a panic while building the answers. -/
def questionPackets (services : List ServiceRecord) (src : SocketAddr) (q : DnsQuestion) :
    Option (List (DnsPacket × SocketAddr)) :=
  if q.qtype = 12 ∧ q.qclass = 1 then
    if (matchingServices services q.qname.name).isEmpty then some []
    else
      match optTraverse (fun s => serviceQueryAnswers s src)
          (matchingServices services q.qname.name) with
      | none => none
      | some anss => some [(⟨0x8400, [], listJoin anss⟩, sendDest)]
  else some []

/-- MdnsService::process_query: one independent response packet per
matching question, in question order. -/
def process_query (services : List ServiceRecord) (packet : DnsPacket) (src : SocketAddr) :
    Option (List (DnsPacket × SocketAddr)) :=
  (optTraverse (questionPackets services src) packet.questions).map listJoin

/-- NodeRecord derived from an answer record by process_response: A
records yield a node (id = rendered name, ip_address = dotted octets,
ttl = Some ttl); other records yield nothing. -/
def nodeOfAnswer : DnsRecord → Option NodeRecord
  | DnsRecord.A name ttl ip => some ⟨name.name, ipToString ip, some ttl⟩
  | _ => none

/-- Registry update for one answer inside process_response. -/
def respStep (nodes : List NodeRecord) (ans : DnsRecord) : List NodeRecord :=
  match ans with
  | DnsRecord.A name ttl ip => addNode nodes ⟨name.name, ipToString ip, some ttl⟩
  | _ => nodes

/-- MdnsService::process_response: for an IPv4 source, upsert a node per
A answer in order; for a non-IPv4 source the whole packet is ignored. -/
def process_response (nodes : List NodeRecord) (packet : DnsPacket) (src : SocketAddr) :
    List NodeRecord :=
  match src with
  | SocketAddr.V4 _ _ => packet.answers.foldl respStep nodes
  | SocketAddr.V6 => nodes

/-- QR-bit classification used by MdnsService::listen. -/
def isResponse (p : DnsPacket) : Bool := p.flags &&& 0x8000 != 0

/-- Dispatch of one decoded packet inside MdnsService::listen: responses
update the node registry, queries may emit response packets.  None models
a panic inside process_query. -/
def handlePacket (services : List ServiceRecord) (nodes : List NodeRecord)
    (packet : DnsPacket) (src : SocketAddr) :
    Option (List (DnsPacket × SocketAddr) × List NodeRecord) :=
  if isResponse packet then some ([], process_response nodes packet src)
  else (process_query services packet src).map (fun sent => (sent, nodes))

/-- One receive event of the listener loop: a datagram together with the
outcome of DnsPacket::parse on its bytes (the codec lives outside src/;
only its success or failure reaches the listener logic), or a socket
receive error. -/
inductive RecvEvent where
  | datagram (parsed : Option DnsPacket) (src : SocketAddr)
  | recvError (msg : String)
deriving DecidableEq, Repr

/-- MdnsService::listen over a finite trace of receive events: sent
packets, final node registry, and Some msg when the loop terminated with
a receive error (None when the trace was exhausted with the loop still
alive).  The outer None models a panic while processing a query. -/
def listenRun (services : List ServiceRecord) :
    List NodeRecord → List RecvEvent →
    Option (List (DnsPacket × SocketAddr) × List NodeRecord × Option String)
  | nodes, [] => some ([], nodes, none)
  | nodes, RecvEvent.recvError msg :: _ => some ([], nodes, some msg)
  | nodes, RecvEvent.datagram none _ :: rest => listenRun services nodes rest
  | nodes, RecvEvent.datagram (some pkt) src :: rest =>
    match handlePacket services nodes pkt src with
    | none => none
    | some (sent, nodes2) =>
      (listenRun services nodes2 rest).map (fun r => (sent ++ r.1, r.2.1, r.2.2))

/-- Sample registered service used in concrete scenarios. -/
def svcHttp : ServiceRecord :=
  ⟨"svc1.local", "_http._tcp.local", 8080, none, "host1.local", some 0, some 0⟩

/-- A 64-byte label, one byte over the DNS label limit. -/
def longLabel : String := String.mk (List.replicate 64 ('a'))

/-- Response packet carrying one A record, used in concrete scenarios. -/
def pktHost2 : DnsPacket :=
  ⟨0x8400, [], [DnsRecord.A ⟨"host2.local"⟩ 120 ⟨10, 0, 0, 9⟩]⟩

/-- PTR/IN question for the sample service type. -/
def qHttp : DnsQuestion := ⟨⟨"_http._tcp.local"⟩, 12, 1⟩

/-- Sample IPv4 querying peer 10.0.0.5:5353. -/
def srcPeer : SocketAddr := SocketAddr.V4 ⟨10, 0, 0, 5⟩ 5353

/-- Answers of the response to qHttp for svcHttp queried from srcPeer. -/
def respAnsHttp : List DnsRecord :=
  [DnsRecord.PTR ⟨"_http._tcp.local"⟩ 120 ⟨"svc1.local"⟩,
   DnsRecord.SRV ⟨"svc1.local"⟩ 120 0 0 8080 ⟨"host1.local"⟩,
   DnsRecord.A ⟨"host1.local"⟩ 120 ⟨10, 0, 0, 5⟩]

/-- Fold over answers with respStep is the fold of addNode over the
NodeRecords derived from the A answers. -/
theorem foldl_respStep (answers : List DnsRecord) (nodes : List NodeRecord) :
    answers.foldl respStep nodes = (answers.filterMap nodeOfAnswer).foldl addNode nodes := by
  induction answers generalizing nodes with
  | nil => rfl
  | cons a rest ih =>
    cases a <;> simp [List.filterMap_cons, respStep, nodeOfAnswer, List.foldl, ih]

/-- Upserting a node leaves that exact node in the registry. -/
theorem mem_addNode (nodes : List NodeRecord) (n : NodeRecord) : n ∈ addNode nodes n := by
  unfold addNode
  by_cases h : nodes.any (fun m => m.id == n.id)
  · rw [if_pos h]
    obtain ⟨m, hm, hid⟩ := List.any_eq_true.mp h
    exact List.mem_map.mpr ⟨m, hm, by simp [hid]⟩
  · rw [if_neg h]
    exact List.mem_append_right _ (List.mem_singleton.mpr rfl)

/-- Every packet emitted for a single question carries flags 0x8400. -/
theorem questionPackets_flags {services : List ServiceRecord} {src : SocketAddr}
    {q : DnsQuestion} {sentq : List (DnsPacket × SocketAddr)}
    (h : questionPackets services src q = some sentq) :
    ∀ x ∈ sentq, x.1.flags = 0x8400 := by
  unfold questionPackets at h
  split at h
  · split at h
    · cases h
      intro x hx
      cases hx
    · split at h
      · cases h
      · cases h
        intro x hx
        rcases List.mem_singleton.mp hx with rfl
        rfl
  · cases h
    intro x hx
    cases hx

/-- Every packet emitted by process_query for a question list carries
flags 0x8400. -/
theorem optTraverse_questionPackets_flags {services : List ServiceRecord} {src : SocketAddr} :
    ∀ (qs : List DnsQuestion) (res : List (List (DnsPacket × SocketAddr))),
      optTraverse (questionPackets services src) qs = some res →
      ∀ x ∈ listJoin res, x.1.flags = 0x8400 := by
  intro qs
  induction qs with
  | nil =>
    intro res h
    cases h
    intro x hx
    cases hx
  | cons q rest ih =>
    intro res h
    unfold optTraverse at h
    cases hq : questionPackets services src q with
    | none => rw [hq] at h; cases h
    | some y =>
      rw [hq] at h
      cases hr : optTraverse (questionPackets services src) rest with
      | none => rw [hr] at h; cases h
      | some ys =>
        rw [hr] at h
        cases h
        intro x hx
        rcases List.mem_append.mp hx with hxy | hxys
        · exact questionPackets_flags hq x hxy
        · exact ih ys hr x hxys

/-- Packets returned Ok by create_advertise_packet carry flags 0x8400. -/
theorem create_advertise_flags {services : List ServiceRecord} {ip? : Option Ipv4}
    {p : DnsPacket} (h : create_advertise_packet services ip? = MdnsResult.ok p) :
    p.flags = 0x8400 := by
  unfold create_advertise_packet at h
  split at h
  · cases h; rfl
  · split at h
    · cases h
    · split at h
      · cases h
      · cases h; rfl

/-- C3 counterexample: the claim asserts A-record ingestion regardless of
the source address family, but a response carrying an A record that
arrives from a non-IPv4 source adds no node to the registry. -/
theorem mdns_C3_cex :
    ¬ ((⟨"host2.local", "10.0.0.9", some 120⟩ : NodeRecord)
        ∈ process_response [] pktHost2 SocketAddr.V6) := by decide

/-- C3 (amended): for an IPv4 source, process_response upserts, in answer
order, exactly the NodeRecord derived from each A answer (id = record
name, ip_address = dotted octets, ttl = Some ttl), ignoring PTR and SRV
answers; for a non-IPv4 source the packet is ignored entirely.  The
upserted node is a member of the resulting registry, as in the spec's
ingestion scenario. -/
theorem mdns_C3_response_ingestion :
    (∀ nodes pkt ip port, process_response nodes pkt (SocketAddr.V4 ip port)
        = (pkt.answers.filterMap nodeOfAnswer).foldl addNode nodes)
    ∧ (∀ nodes pkt, process_response nodes pkt SocketAddr.V6 = nodes)
    ∧ (∀ name ttl ip, nodeOfAnswer (DnsRecord.A name ttl ip)
        = some ⟨name.name, ipToString ip, some ttl⟩)
    ∧ (∀ name ttl pn, nodeOfAnswer (DnsRecord.PTR name ttl pn) = none)
    ∧ (∀ n t pr w pt tg, nodeOfAnswer (DnsRecord.SRV n t pr w pt tg) = none)
    ∧ (∀ nodes n, n ∈ addNode nodes n)
    ∧ (⟨"host2.local", "10.0.0.9", some 120⟩ : NodeRecord)
        ∈ process_response [] pktHost2 (SocketAddr.V4 ⟨10, 0, 0, 5⟩ 5353) := by
  refine ⟨?_, fun _ _ => rfl, fun _ _ _ => rfl, fun _ _ _ => rfl, fun _ _ _ _ _ _ => rfl,
    mem_addNode, by decide⟩
  intro nodes pkt ip port
  exact foldl_respStep pkt.answers nodes

/-- C4: query matching in process_query is byte-for-byte equality of the
question name with each service's service_type: membership in the match
set is equivalent to exact string equality, and in particular a case
change or a dropped character matches nothing. -/
theorem mdns_C4_exact_match :
    (∀ services requested s,
        s ∈ matchingServices services requested ↔ s ∈ services ∧ s.service_type = requested)
    ∧ matchingServices [svcHttp] ("_HTTP._tcp.local") = []
    ∧ matchingServices [svcHttp] ("_http._tcp.loca") = [] := by
  refine ⟨?_, by decide, by decide⟩
  intro services requested s
  simp [matchingServices, List.mem_filter]

/-- C6: a datagram whose bytes fail to decode is discarded and the
listener continues exactly as on the remaining events, whereas an error
from the socket receive call terminates the listener immediately and is
surfaced to the caller, leaving later events unprocessed. -/
theorem mdns_C6_listener_errors :
    (∀ (services : List ServiceRecord) (nodes : List NodeRecord) (src : SocketAddr)
        (evs : List RecvEvent),
        listenRun services nodes (RecvEvent.datagram none src :: evs)
          = listenRun services nodes evs)
    ∧ (∀ (services : List ServiceRecord) (nodes : List NodeRecord) (msg : String)
        (evs : List RecvEvent),
        listenRun services nodes (RecvEvent.recvError msg :: evs)
          = some ([], nodes, some msg)) :=
  ⟨fun _ _ _ _ => rfl, fun _ _ _ _ => rfl⟩

/-- C7: with an empty registry, create_advertise_packet succeeds with a
packet carrying flags 0x8400 and zero answers, and its result does not
depend on the local-IP lookup at all (in particular it succeeds even when
the lookup would fail). -/
theorem mdns_C7_advertise_empty :
    (∀ localIp?, create_advertise_packet [] localIp? = MdnsResult.ok ⟨0x8400, [], []⟩)
    ∧ (∀ a b, create_advertise_packet [] a = create_advertise_packet [] b) :=
  ⟨fun _ => rfl, fun _ _ => rfl⟩

/-- C9: register_local_service accepts a service whose id is a 64-byte
DNS label without validation, and both create_advertise_packet and
process_query then hit the unconditional DnsName unwrap and panic on
that service. -/
theorem mdns_C9_invalid_name_panics :
    create_advertise_packet
        [register_local_service longLabel ("_bad._tcp.local") 9 none ("host.local")]
        (some ⟨192, 168, 1, 7⟩) = MdnsResult.panicked
    ∧ process_query
        [register_local_service longLabel ("_bad._tcp.local") 9 none ("host.local")]
        ⟨0, [⟨⟨"_bad._tcp.local"⟩, 12, 1⟩], []⟩
        (SocketAddr.V4 ⟨10, 0, 0, 5⟩ 5353) = none := by decide

/-- C10: advertise_services hands exactly one packet to send_packet on
every successful invocation, addressed to the multicast group; with an
empty registry the answerless 0x8400 packet is still transmitted. -/
theorem mdns_C10_advertise_sends_one :
    (∀ localIp?, advertise_services [] localIp?
        = MdnsResult.ok [(⟨0x8400, [], []⟩, sendDest)])
    ∧ (∀ services localIp? p, create_advertise_packet services localIp? = MdnsResult.ok p →
        advertise_services services localIp? = MdnsResult.ok [(p, sendDest)]) := by
  constructor
  · intro ip?; rfl
  · intro services ip? p h
    unfold advertise_services
    rw [h]

/-- C10 witness: the empty-registry advertisement concretely sends one
answerless packet to the multicast group. -/
theorem mdns_C10_witness :
    advertise_services [] none = MdnsResult.ok [(⟨0x8400, [], []⟩, sendDest)] :=
  mdns_C10_advertise_sends_one.2 [] none ⟨0x8400, [], []⟩ (by decide)

/-- Shape of process_query on a packet with a single matching question. -/
theorem process_query_single {services : List ServiceRecord} {q : DnsQuestion}
    {src : SocketAddr} {anss : List (List DnsRecord)}
    (hqt : q.qtype = 12) (hqc : q.qclass = 1)
    (hne : matchingServices services q.qname.name ≠ [])
    (h : optTraverse (fun s => serviceQueryAnswers s src)
          (matchingServices services q.qname.name) = some anss) :
    ∀ flags answers, process_query services ⟨flags, [q], answers⟩ src
      = some [(⟨0x8400, [], listJoin anss⟩, sendDest)] := by
  intro flags answers
  have hm : (matchingServices services q.qname.name).isEmpty = false := by
    cases hmm : matchingServices services q.qname.name with
    | nil => exact absurd hmm hne
    | cons a l => rfl
  have hq : questionPackets services src q
      = some [(⟨0x8400, [], listJoin anss⟩, sendDest)] := by
    unfold questionPackets
    rw [if_pos ⟨hqt, hqc⟩, if_neg (by simp [hm]), h]
  unfold process_query
  simp [optTraverse, hq, listJoin]

/-- C1: a query packet (QR clear) with a PTR/IN question arriving from an
IPv4 source makes the listener dispatch into process_query, which builds
one response packet with flags 0x8400, whose answers are, per matching
service and in order, a PTR, an SRV, and an A record carrying the four
octets of the querying source address, and hands that packet to
send_packet addressed to the multicast group 224.0.0.251:5353. -/
theorem mdns_C1_query_response (services : List ServiceRecord) (nodes : List NodeRecord)
    (q : DnsQuestion) (flags : Nat) (ip : Ipv4) (port : Nat)
    (anss : List (List DnsRecord))
    (hqr : flags &&& 0x8000 = 0) (hqt : q.qtype = 12) (hqc : q.qclass = 1)
    (hne : matchingServices services q.qname.name ≠ [])
    (h : optTraverse (fun s => serviceQueryAnswers s (SocketAddr.V4 ip port))
          (matchingServices services q.qname.name) = some anss) :
    handlePacket services nodes ⟨flags, [q], []⟩ (SocketAddr.V4 ip port)
      = some ([(⟨0x8400, [], listJoin anss⟩, sendDest)], nodes)
    ∧ (∀ s tn idn og, DnsName.new s.service_type = some tn → DnsName.new s.id = some idn →
        DnsName.new s.origin = some og →
        serviceQueryAnswers s (SocketAddr.V4 ip port) = some
          [DnsRecord.PTR tn (s.ttl.getD 120) idn,
           DnsRecord.SRV idn (s.ttl.getD 120) (s.priority.getD 0) (s.weight.getD 0)
             s.port og,
           DnsRecord.A og (s.ttl.getD 120) ip])
    ∧ sendDest = SocketAddr.V4 ⟨224, 0, 0, 251⟩ 5353 := by
  refine ⟨?_, ?_, rfl⟩
  · unfold handlePacket
    rw [if_neg (by simp [isResponse, hqr])]
    rw [process_query_single hqt hqc hne h flags []]
    rfl
  · intro s tn idn og h1 h2 h3
    simp [serviceQueryAnswers, h1, h2, h3]

/-- C1 witness: the registered _http._tcp.local service queried from
10.0.0.5 concretely yields the single multicast response whose A record
carries 10.0.0.5. -/
theorem mdns_C1_witness :
    handlePacket [svcHttp] [] ⟨0, [qHttp], []⟩ srcPeer
      = some ([(⟨0x8400, [], listJoin [respAnsHttp]⟩, sendDest)], []) :=
  (mdns_C1_query_response [svcHttp] [] qHttp 0 ⟨10, 0, 0, 5⟩ 5353 [respAnsHttp]
    (by decide) (by decide) (by decide) (by decide) (by decide)).1

/-- C2: create_advertise_packet emits, per service and in order, a PTR
record (name = service_type, ptr_name = id), an SRV record (name = id,
target = origin, port = port, priority and weight defaulting to 0), and
an A record (name = origin, ip = the locally discovered IPv4 address),
each with ttl the service's ttl or 120 when absent. -/
theorem mdns_C2_advertise_structure (services : List ServiceRecord) (ip : Ipv4)
    (anss : List (List DnsRecord)) (hne : services ≠ [])
    (h : optTraverse (fun s => serviceAnswers s ip) services = some anss) :
    create_advertise_packet services (some ip) = MdnsResult.ok ⟨0x8400, [], listJoin anss⟩
    ∧ (∀ s tn idn og, DnsName.new s.service_type = some tn → DnsName.new s.id = some idn →
        DnsName.new s.origin = some og →
        serviceAnswers s ip = some
          [DnsRecord.PTR tn (s.ttl.getD 120) idn,
           DnsRecord.SRV idn (s.ttl.getD 120) (s.priority.getD 0) (s.weight.getD 0)
             s.port og,
           DnsRecord.A og (s.ttl.getD 120) ip]) := by
  constructor
  · have he : services.isEmpty = false := by
      cases services with
      | nil => exact absurd rfl hne
      | cons a l => rfl
    unfold create_advertise_packet
    rw [if_neg (by simp [he])]
    dsimp only
    rw [h]
  · intro s tn idn og h1 h2 h3
    simp [serviceAnswers, h1, h2, h3]

/-- C2 witness: one registered service with ttl None yields exactly the
three answers PTR, SRV, A in order, all with ttl 120, the A record
carrying the locally discovered address. -/
theorem mdns_C2_witness :
    create_advertise_packet [register_local_service ("svc1.local") ("_http._tcp.local")
        8080 none ("host1.local")] (some ⟨192, 168, 1, 42⟩)
      = MdnsResult.ok ⟨0x8400, [],
          [DnsRecord.PTR ⟨"_http._tcp.local"⟩ 120 ⟨"svc1.local"⟩,
           DnsRecord.SRV ⟨"svc1.local"⟩ 120 0 0 8080 ⟨"host1.local"⟩,
           DnsRecord.A ⟨"host1.local"⟩ 120 ⟨192, 168, 1, 42⟩]⟩ := by
  have h := (mdns_C2_advertise_structure
    [register_local_service ("svc1.local") ("_http._tcp.local") 8080 none ("host1.local")]
    ⟨192, 168, 1, 42⟩
    [[DnsRecord.PTR ⟨"_http._tcp.local"⟩ 120 ⟨"svc1.local"⟩,
      DnsRecord.SRV ⟨"svc1.local"⟩ 120 0 0 8080 ⟨"host1.local"⟩,
      DnsRecord.A ⟨"host1.local"⟩ 120 ⟨192, 168, 1, 42⟩]]
    (by decide) (by decide)).1
  simpa [listJoin] using h

/-- C5: outgoing response and advertisement packets carry flags exactly
0x8400, the periodic query packet carries flags exactly 0x0000, and an
inbound packet is classified (and dispatched) as a response exactly when
bit 15 of its flags is set, as a query otherwise. -/
theorem mdns_C5_flags :
    (∀ services ip? p, create_advertise_packet services ip? = MdnsResult.ok p →
        p.flags = 0x8400)
    ∧ (∀ services pkt src sent, process_query services pkt src = some sent →
        ∀ x ∈ sent, x.1.flags = 0x8400)
    ∧ (∀ st p, periodic_query_packet st = some p → p.flags = 0)
    ∧ (∀ p, isResponse p = true ↔ p.flags &&& 0x8000 ≠ 0)
    ∧ (∀ services nodes pkt src, isResponse pkt = true →
        handlePacket services nodes pkt src = some ([], process_response nodes pkt src))
    ∧ (∀ services nodes pkt src, isResponse pkt = false →
        handlePacket services nodes pkt src
          = (process_query services pkt src).map (fun sent => (sent, nodes))) := by
  refine ⟨fun services ip? p h => create_advertise_flags h, ?_, ?_, ?_, ?_, ?_⟩
  · intro services pkt src sent h
    unfold process_query at h
    cases hr : optTraverse (questionPackets services src) pkt.questions with
    | none => rw [hr] at h; cases h
    | some res =>
      rw [hr] at h
      cases h
      exact optTraverse_questionPackets_flags pkt.questions res hr
  · intro st p h
    unfold periodic_query_packet at h
    cases hn : DnsName.new st with
    | none => rw [hn] at h; cases h
    | some n => rw [hn] at h; cases h; rfl
  · intro p
    simp [isResponse]
  · intro services nodes pkt src h
    simp [handlePacket, h]
  · intro services nodes pkt src h
    simp [handlePacket, h]

/-- C5 witness: concrete advertisement, query-response and periodic-query
packets carry the claimed flag values. -/
theorem mdns_C5_witness :
    ((⟨0x8400, [], []⟩ : DnsPacket).flags = 0x8400)
    ∧ ((⟨0x0000, [⟨⟨"_x.local"⟩, 12, 1⟩], []⟩ : DnsPacket).flags = 0)
    ∧ (((⟨0x8400, [], respAnsHttp⟩ : DnsPacket), sendDest).1.flags = 0x8400) :=
  ⟨mdns_C5_flags.1 [] none ⟨0x8400, [], []⟩ (by decide),
   mdns_C5_flags.2.2.1 ("_x.local") ⟨0x0000, [⟨⟨"_x.local"⟩, 12, 1⟩], []⟩ (by decide),
   mdns_C5_flags.2.1 [svcHttp] ⟨0, [qHttp], []⟩ srcPeer
     [(⟨0x8400, [], respAnsHttp⟩, sendDest)] (by decide)
     (⟨0x8400, [], respAnsHttp⟩, sendDest) (by decide)⟩

/-- C8: a question whose qtype is not 12 or qclass is not 1 emits no
packet, a PTR/IN question with an empty match set emits no packet, a
question with a non-empty match set emits exactly one response packet of
its own, and process_query concatenates the per-question emissions in
question order. -/
theorem mdns_C8_per_question :
    (∀ services src q, (q.qtype ≠ 12 ∨ q.qclass ≠ 1) →
        questionPackets services src q = some [])
    ∧ (∀ services src q, q.qtype = 12 → q.qclass = 1 →
        matchingServices services q.qname.name = [] →
        questionPackets services src q = some [])
    ∧ (∀ services src q anss, q.qtype = 12 → q.qclass = 1 →
        matchingServices services q.qname.name ≠ [] →
        optTraverse (fun s => serviceQueryAnswers s src)
          (matchingServices services q.qname.name) = some anss →
        questionPackets services src q = some [(⟨0x8400, [], listJoin anss⟩, sendDest)])
    ∧ (∀ services src pkt qsent,
        optTraverse (questionPackets services src) pkt.questions = some qsent →
        process_query services pkt src = some (listJoin qsent)) := by
  refine ⟨?_, ?_, ?_, ?_⟩
  · intro services src q hbad
    unfold questionPackets
    rw [if_neg (by tauto)]
  · intro services src q hqt hqc hm
    unfold questionPackets
    rw [if_pos ⟨hqt, hqc⟩, if_pos (by simp [hm])]
  · intro services src q anss hqt hqc hne h
    have hm : (matchingServices services q.qname.name).isEmpty = false := by
      cases hmm : matchingServices services q.qname.name with
      | nil => exact absurd hmm hne
      | cons a l => rfl
    unfold questionPackets
    rw [if_pos ⟨hqt, hqc⟩, if_neg (by simp [hm]), h]
  · intro services src pkt qsent h
    unfold process_query
    rw [h]
    rfl

/-- C8 witness: concretely, a non-PTR question and a PTR question with no
match produce no packet, while a matching question produces exactly one
response packet, and process_query joins the per-question emissions. -/
theorem mdns_C8_witness :
    questionPackets [svcHttp] srcPeer ⟨⟨"svc1.local"⟩, 1, 1⟩ = some []
    ∧ questionPackets [svcHttp] srcPeer ⟨⟨"_other._tcp.local"⟩, 12, 1⟩ = some []
    ∧ questionPackets [svcHttp] srcPeer qHttp
        = some [(⟨0x8400, [], listJoin [respAnsHttp]⟩, sendDest)]
    ∧ process_query [svcHttp] ⟨0, [⟨⟨"svc1.local"⟩, 1, 1⟩, qHttp], []⟩ srcPeer
        = some (listJoin [[], [(⟨0x8400, [], listJoin [respAnsHttp]⟩, sendDest)]]) :=
  ⟨mdns_C8_per_question.1 [svcHttp] srcPeer ⟨⟨"svc1.local"⟩, 1, 1⟩ (by decide),
   mdns_C8_per_question.2.1 [svcHttp] srcPeer ⟨⟨"_other._tcp.local"⟩, 12, 1⟩
     (by decide) (by decide) (by decide),
   mdns_C8_per_question.2.2.1 [svcHttp] srcPeer qHttp [respAnsHttp]
     (by decide) (by decide) (by decide) (by decide),
   mdns_C8_per_question.2.2.2 [svcHttp] srcPeer ⟨0, [⟨⟨"svc1.local"⟩, 1, 1⟩, qHttp], []⟩
     [[], [(⟨0x8400, [], listJoin [respAnsHttp]⟩, sendDest)]] (by decide)⟩

